import Mathlib

/-!
Verification development for the YouTube channel-download job subsystem of the
chiyi-chatbot repository (src/server/youtubeDownloader.js and the job driver /
SSE endpoints in src/server/index.js).

Shallow embedding conventions:
* External asynchronous calls (yt-dlp process invocations, transcript HTTP
  fetches) are modelled as oracle parameters supplying, per call, either the
  structured value the call produced or the message of the exception it threw
  (`Except String _`).
* JavaScript `null`/`undefined`-able fields are modelled as `Option _`
  (`none` = null/absent).  JavaScript numbers that the code only ever treats
  as integers are modelled as `Int`/`Nat`; where IEEE-double overflow is
  observable (`Number.isFinite` in `clampInt`) the overflow cutoff is modelled
  explicitly.
* The single-threaded Node.js execution model means registry mutations between
  two `await` points are atomic; the job trace below therefore records the
  registry state at each published SSE event, which are exactly the states a
  concurrently-arriving HTTP request can observe.
-/

set_option maxRecDepth 8192

namespace YoutubeJobs

/-! ### JavaScript `Number.parseInt` and `clampInt`
Source: `clampInt` in src/server/youtubeDownloader.js, lines 26-30:
```
function clampInt(n, min, max, fallback) {
  const x = Number.parseInt(n, 10);
  if (!Number.isFinite(x)) return fallback;
  return Math.max(min, Math.min(max, x));
}
```
`Number.parseInt(n, 10)` first converts `n` to a string (we model the input as
`Option String`, `none` standing for `undefined`, whose ToString is
"undefined"; numeric arguments enter as their JS decimal string form), skips
leading whitespace, accepts an optional sign and then the longest leading run
of decimal digits, yielding NaN when that run is empty. -/

/-- The characters `String.prototype`-style parsing treats as leading
whitespace (StrWhiteSpace: tab, LF, VT, FF, CR, space, NBSP, BOM). -/
def isJsSpace (c : Char) : Bool :=
  c = ' ' || c = '\t' || c = '\n' || c = '\x0b' || c = '\x0c' || c = '\r' ||
  c = ' ' || c = '﻿'

/-- Value of a run of decimal digit characters. -/
def digitsVal (ds : List Char) : Nat :=
  ds.foldl (fun a c => a * 10 + (c.toNat - 48)) 0

/-- The longest leading run of decimal digits, or `none` when it is empty. -/
def leadingDigits (cs : List Char) : Option Nat :=
  let ds := cs.takeWhile (·.isDigit)
  if ds.isEmpty then none else some (digitsVal ds)

/-- `Number.parseInt(s, 10)` as an exact integer; `none` models NaN.
(The JS value is this integer rounded to an IEEE double; rounding is handled
at the one observation point where it matters, `overflowsDouble`.) -/
def jsParseInt (s : String) : Option Int :=
  match s.data.dropWhile isJsSpace with
  | '-' :: rest => (leadingDigits rest).map (fun v => -(v : Int))
  | '+' :: rest => (leadingDigits rest).map (fun v => (v : Int))
  | rest => (leadingDigits rest).map (fun v => (v : Int))

/-- Smallest magnitude at which rounding an exact integer to an IEEE-754
double yields ±Infinity (half-way cutoff above the largest finite double). -/
def doubleOverflowCutoff : Nat := 2 ^ 1024 - 2 ^ 970

/-- Whether the exact parseInt result rounds to ±Infinity as a double,
making `Number.isFinite` false. -/
def overflowsDouble (x : Int) : Bool := doubleOverflowCutoff ≤ x.natAbs

/-- `clampInt` from src/server/youtubeDownloader.js.  The input is the JS
string form of the argument (`none` = `undefined`).  `Math.max(mn,
Math.min(mx, x))` over the in-range doubles agrees with exact integer
max/min because rounding to double is monotone and the bounds used by the
program (1, 100) are exactly representable. -/
def clampInt (n : Option String) (mn mx fallback : Int) : Int :=
  match jsParseInt (n.getD "undefined") with
  | none => fallback
  | some x => if overflowsDouble x then fallback else max mn (min mx x)

/-- parseInt combined with the `Number.isFinite` test: the parsed value when
it is a finite double, `none` when parseInt yielded NaN or ±Infinity. -/
def jsParseIntFinite (n : Option String) : Option Int :=
  match jsParseInt (n.getD "undefined") with
  | none => none
  | some x => if overflowsDouble x then none else some x

/-! ### Date normalization
Source: `parseUploadDate` (src/server/youtubeDownloader.js, lines 45-52) and
the `uploadDate` computation in `fetchVideoMeta` (line 108):
```
const uploadDate = parseUploadDate(v.upload_date) ||
  (v.timestamp ? new Date(v.timestamp * 1000).toISOString() : null);
```
-/

/-- `parseUploadDate`: any *string* of length exactly 8 is sliced into
`YYYY-MM-DD`; the code checks only `typeof`/length, not digit content. -/
def parseUploadDate (uploadDate : Option String) : Option String :=
  match uploadDate with
  | none => none
  | some s =>
    if s.length = 8 then
      some (s.take 4 ++ "-" ++ (s.drop 4).take 2 ++ "-" ++ s.drop 6)
    else none

/-- Left-pad the decimal form of `n` with zeros to width `w`. -/
def padZeros (w n : Nat) : String :=
  let s := toString n
  if s.length < w then String.mk (List.replicate (w - s.length) '0') ++ s else s

/-- Proleptic-Gregorian civil date from days since the Unix epoch
(Howard Hinnant's `civil_from_days`), as used by `Date.prototype.toISOString`. -/
def civilFromDays (z0 : Int) : Int × Nat × Nat :=
  let z := z0 + 719468
  let era := Int.fdiv z 146097
  let doe := (z - era * 146097).toNat
  let yoe := (doe - doe / 1460 + doe / 36524 - doe / 146096) / 365
  let y := (yoe : Int) + era * 400
  let doy := doe - (365 * yoe + yoe / 4 - yoe / 100)
  let mp := (5 * doy + 2) / 153
  let d := doy - (153 * mp + 2) / 5 + 1
  let m := if mp < 10 then mp + 3 else mp - 9
  (if m ≤ 2 then y + 1 else y, m, d)

/-- The year field of `toISOString`: four digits for 0..9999, otherwise the
ECMAScript expanded form (sign plus six digits). -/
def isoYearString (y : Int) : String :=
  if 0 ≤ y ∧ y ≤ 9999 then padZeros 4 y.toNat
  else if y < 0 then "-" ++ padZeros 6 (-y).toNat
  else "+" ++ padZeros 6 y.toNat

/-- `new Date(ms).toISOString()` for an exact integer count of milliseconds
since the Unix epoch (UTC). -/
def jsToISOString (ms : Int) : String :=
  let days := Int.fdiv ms 86400000
  let msod := (ms - days * 86400000).toNat
  let c := civilFromDays days
  isoYearString c.1 ++ "-" ++ padZeros 2 c.2.1 ++ "-" ++ padZeros 2 c.2.2 ++
    "T" ++ padZeros 2 (msod / 3600000) ++ ":" ++ padZeros 2 (msod % 3600000 / 60000) ++
    ":" ++ padZeros 2 (msod % 60000 / 1000) ++ "." ++ padZeros 3 (msod % 1000) ++ "Z"

/-- The `uploadDate` expression of `fetchVideoMeta` (line 108).
`parseUploadDate` returns either null or a non-empty (hence truthy) string,
so `||` is exactly `Option` fallback; `v.timestamp ? ... : null` treats the
number 0 as falsy. -/
def releaseDate (upload_date : Option String) (timestamp : Option Int) : Option String :=
  match parseUploadDate upload_date with
  | some d => some d
  | none =>
    match timestamp with
    | some t => if t = 0 then none else some (jsToISOString (t * 1000))
    | none => none

/-! ### Video metadata records
Source: `fetchVideoMeta` (src/server/youtubeDownloader.js, lines 90-124).
`RawVideo` is the shape of the JSON object the external per-video metadata
call produces (fields absent or null are `none`); `VideoMeta` is the record
the function builds from it.  The `error` field models the `error` key of the
failure placeholder (absent on success, hence `none`). -/

structure RawVideo where
  id : Option String
  title : Option String
  description : Option String
  duration : Option Int
  duration_string : Option String
  upload_date : Option String
  timestamp : Option Int
  view_count : Option Int
  like_count : Option Int
  comment_count : Option Int
  webpage_url : Option String
  thumbnail : Option String
  thumbnails : List (Option String)
deriving DecidableEq

structure VideoMeta where
  video_id : String
  title : Option String
  description : Option String
  transcript : Option String
  duration_seconds : Option Int
  duration_iso : Option String
  release_date : Option String
  view_count : Option Int
  like_count : Option Int
  comment_count : Option Int
  video_url : String
  thumbnail_url : Option String
  error : Option String
deriving DecidableEq

/-- `normalizeVideoUrl` (lines 41-43). -/
def normalizeVideoUrl (videoId : String) : String :=
  "https://www.youtube.com/watch?v=" ++ videoId

/-- JS `a || b` for a string-or-null `a` and string `b`: null, undefined and
the empty string are falsy. -/
def jsOrStr (a : Option String) (b : String) : String :=
  match a with
  | some s => if s = "" then b else s
  | none => b

/-- Truthiness of a string-or-null value. -/
def strTruthy (a : Option String) : Bool :=
  match a with
  | some s => !(s == "")
  | none => false

/-- The `thumb` expression of `fetchVideoMeta` (lines 102-106):
`v.thumbnail || (Array.isArray(v.thumbnails) && v.thumbnails.length ?
v.thumbnails[v.thumbnails.length - 1]?.url : null)`.  A non-array
`thumbnails` is modelled as the empty list; each element is its `url` field
(`none` when the element or its url is missing). -/
def rawThumb (v : RawVideo) : Option String :=
  if strTruthy v.thumbnail then v.thumbnail
  else
    match v.thumbnails.getLast? with
    | some u => u
    | none => none

/-- `fetchVideoMeta` record construction (lines 110-123) applied to the JSON
value `v` the external call returned for `videoId`.  The JS object literal
has no `error` key, modelled as `error := none`. -/
def fetchVideoMeta (videoId : String) (v : RawVideo) : VideoMeta :=
  let url := normalizeVideoUrl videoId
  { video_id := jsOrStr v.id videoId
    title := some (v.title.getD "")
    description := some (v.description.getD "")
    transcript := none
    duration_seconds := v.duration
    duration_iso := v.duration_string
    release_date := releaseDate v.upload_date v.timestamp
    view_count := v.view_count
    like_count := v.like_count
    comment_count := v.comment_count
    video_url := jsOrStr v.webpage_url url
    thumbnail_url := if strTruthy (rawThumb v) then rawThumb v else none
    error := none }

/-! ### Transcript best-effort fetch
Source: `fetchTranscriptBestEffort` (lines 54-65).  The oracle argument is
the outcome of `YoutubeTranscript.fetchTranscript`: a list of timed-text
items, or the thrown error's message.  Every failure is swallowed into
`none`; the function itself never throws. -/

structure TranscriptItem where
  text : Option String
deriving DecidableEq

def fetchTranscriptBestEffort (items : Except String (List TranscriptItem)) : Option String :=
  match items with
  | .error _ => none
  | .ok its =>
    if its.isEmpty then none
    else
      some (String.intercalate " "
        ((its.map fun t => (t.text.getD "").trim).filter fun s => !(s == "")))

/-! ### Collection enumeration
Source: `listVideoIds` (lines 67-88).  The oracle is the combined outcome of
the yt-dlp flat-playlist call and `JSON.parse` on its output: either the
parsed listing or the message of the exception either step threw.  A
`parsed.entries` that is not an array is `none`; a null entry is modelled as
one with `id := none` (both map to null in the source's `.map`). -/

structure ListingEntry where
  id : Option String
deriving DecidableEq

structure Listing where
  entries : Option (List ListingEntry)
deriving DecidableEq

def listVideoIds (json : Except String Listing) (maxVideos : Option String) : Except String (List String) :=
  let max := clampInt maxVideos 1 100 10
  match json with
  | .error e => .error e
  | .ok parsed =>
    let entries := parsed.entries.getD []
    .ok ((entries.filterMap fun e =>
      match e.id with
      | some s => if s = "" then none else some s
      | none => none).take max.toNat)

/-! ### Batch orchestration
Source: `downloadChannelData` (lines 126-171).  Oracles: `rawAt i` is the
outcome of `fetchVideoMeta`'s external call for the `i`-th unit, `trAt i`
that of the transcript lookup for the `i`-th unit. -/

abbrev RawOracle := Nat → Except String RawVideo
abbrev TrOracle := Nat → Except String (List TranscriptItem)

/-- The placeholder record appended in the catch branch (lines 142-156). -/
def placeholderRecord (videoId msg : String) : VideoMeta :=
  { video_id := videoId
    title := some ""
    description := some ""
    transcript := none
    duration_seconds := none
    duration_iso := none
    release_date := none
    view_count := none
    like_count := none
    comment_count := none
    video_url := normalizeVideoUrl videoId
    thumbnail_url := none
    error := some msg }

/-- The record appended for unit `i` (success: fetched record with the
transcript filled in; failure: the placeholder). -/
def unitOutcome (videoId : String) (raw : Except String RawVideo)
    (trItems : Except String (List TranscriptItem)) : VideoMeta :=
  match raw with
  | .ok v => { fetchVideoMeta videoId v with transcript := fetchTranscriptBestEffort trItems }
  | .error e => placeholderRecord videoId e

/-- The `error` local of the loop body as passed to `onProgress`. -/
def unitError (raw : Except String RawVideo) : Option String :=
  match raw with
  | .ok _ => none
  | .error e => some e

/-- The `item` local of the loop body as passed to `onProgress` (null when
the metadata fetch threw). -/
def unitItem (videoId : String) (raw : Except String RawVideo)
    (trItems : Except String (List TranscriptItem)) : Option VideoMeta :=
  match raw with
  | .ok _ => some (unitOutcome videoId raw trItems)
  | .error _ => none

/-- The `for` loop of `downloadChannelData` (lines 131-168), restricted to
the `results` accumulation (`results.push(...)` per unit). -/
def downloadLoop (rawAt : RawOracle) (trAt : TrOracle) :
    List String → Nat → List VideoMeta → List VideoMeta
  | [], _, results => results
  | videoId :: rest, i, results =>
    downloadLoop rawAt trAt rest (i + 1) (results ++ [unitOutcome videoId (rawAt i) (trAt i)])

/-- `downloadChannelData`: enumeration outcome in, `{total, results}` out;
an enumeration failure propagates (the only uncaught throw). -/
def downloadChannelData (enum : Except String (List String))
    (rawAt : RawOracle) (trAt : TrOracle) : Except String (Nat × List VideoMeta) :=
  match enum with
  | .error e => .error e
  | .ok ids => .ok (ids.length, downloadLoop rawAt trAt ids 0 [])

/-- Specification-side closed form of the per-unit outcomes starting at
index `i` (proved equal to the accumulating loop below). -/
def outcomesFrom (rawAt : RawOracle) (trAt : TrOracle) :
    List String → Nat → List VideoMeta
  | [], _ => []
  | videoId :: rest, i =>
    unitOutcome videoId (rawAt i) (trAt i) :: outcomesFrom rawAt trAt rest (i + 1)

/-! ### Job registry state and the SSE driver
Source: the `POST /api/youtube/jobs` handler (src/server/index.js, lines
87-143) and the stream endpoint (lines 145-168).  `JobState` is the registry
record (`createdAt`, a write-only timestamp, is omitted).  The trace below
records every broadcast SSE event together with the registry state right
after it is published; since Node is single-threaded and the driver mutates
the job only between `await` points, these are exactly the snapshots another
request (stream attach, status poll) can observe. -/

inductive JobStatus where
  | running
  | done
  | error
deriving DecidableEq

structure JobState where
  status : JobStatus
  total : Nat
  completed : Nat
  results : List VideoMeta
  error : Option String
  channelUrl : String
  maxVideos : Nat
deriving DecidableEq

/-- SSE events, by event name: `status` (either the `{status:'starting'}`
broadcast or the replay snapshot), `progress`, `done`, `error`. -/
inductive SSEEvent where
  | statusStarting
  | statusReplay (status : JobStatus) (completed total : Nat)
  | progressEv (completed total : Nat) (video_id : String)
      (err : Option String) (item : Option VideoMeta)
  | doneEv (total : Nat)
  | errorEv (msg : String)
deriving DecidableEq

structure JobStep where
  event : SSEEvent
  state : JobState
deriving DecidableEq

/-- The job record inserted by the create handler (lines 96-105). -/
def initialJob (cu : String) (max : Nat) : JobState :=
  { status := .running
    total := max
    completed := 0
    results := []
    error := none
    channelUrl := cu
    maxVideos := max }

/-- Registry state after the `onProgress` callback for completed count `c`:
`job.completed = p.completed; job.total = p.total` (lines 112-116). -/
def runningJob (cu : String) (max N c : Nat) : JobState :=
  { initialJob cu max with completed := c, total := N }

/-- Registry state after the success epilogue (lines 120-125). -/
def doneJob (cu : String) (max N : Nat) (results : List VideoMeta) : JobState :=
  { status := .done
    total := N
    completed := N
    results := results
    error := none
    channelUrl := cu
    maxVideos := max }

/-- Registry state after the catch handler (lines 127-133): only `status`
and `error` are written; `completed`/`results` keep their current values,
which are the initial ones because the only uncaught throw happens before
any progress callback. -/
def errorJob (cu : String) (max : Nat) (msg : String) : JobState :=
  { initialJob cu max with status := .error, error := some msg }

/-- Event/state steps produced by the unit loop: one `progress` broadcast
per unit, then the `done` broadcast. -/
def loopSteps (cu : String) (max : Nat) (rawAt : RawOracle) (trAt : TrOracle) (N : Nat) :
    List String → Nat → List VideoMeta → List JobStep
  | [], _, results => [⟨.doneEv N, doneJob cu max N results⟩]
  | videoId :: rest, i, results =>
    ⟨.progressEv (i + 1) N videoId (unitError (rawAt i)) (unitItem videoId (rawAt i) (trAt i)),
      runningJob cu max N (i + 1)⟩ ::
    loopSteps cu max rawAt trAt N rest (i + 1) (results ++ [unitOutcome videoId (rawAt i) (trAt i)])

/-- The full broadcast trace of one job run: the `starting` status broadcast,
then either the enumeration-failure error path or the unit loop. -/
def jobSteps (cu : String) (max : Nat) (enum : Except String (List String))
    (rawAt : RawOracle) (trAt : TrOracle) : List JobStep :=
  ⟨.statusStarting, initialJob cu max⟩ ::
  match enum with
  | .error e => [⟨.errorEv e, errorJob cu max e⟩]
  | .ok ids => loopSteps cu max rawAt trAt ids.length ids 0 []

/-- All registry states a reader can observe: the freshly-created job,
then the state after each published event. -/
def jobStates (cu : String) (max : Nat) (enum : Except String (List String))
    (rawAt : RawOracle) (trAt : TrOracle) : List JobState :=
  initialJob cu max :: (jobSteps cu max enum rawAt trAt).map (·.state)

/-- The registry state once the run has terminated (jobs are never removed
from the registry). -/
def finalJob (cu : String) (max : Nat) (enum : Except String (List String))
    (rawAt : RawOracle) (trAt : TrOracle) : JobState :=
  (jobStates cu max enum rawAt trAt).getLastD (initialJob cu max)

/-- The registry state seen by a request that arrives after `k` events of
the run have been published (for `k` past the end of the run, the final
state). -/
def stateAfter (cu : String) (max : Nat) (enum : Except String (List String))
    (rawAt : RawOracle) (trAt : TrOracle) (k : Nat) : JobState :=
  (jobStates cu max enum rawAt trAt).getD k (finalJob cu max enum rawAt trAt)

/-- The replay the stream endpoint sends on attach when the job exists
(lines 156-159): always a `status` snapshot, then the terminal event if the
job has already terminated. -/
def replayEvents (j : JobState) : List SSEEvent :=
  .statusReplay j.status j.completed j.total ::
  ((if j.status = .done then [SSEEvent.doneEv j.total] else []) ++
    (if j.status = .error then [SSEEvent.errorEv (j.error.getD "Unknown error")] else []))

/-- Everything a subscriber receives when it attaches after `k` events have
been published: the attach-time replay (sent synchronously, before any later
broadcast can interleave), followed by the remaining live broadcasts. -/
def receivedEvents (cu : String) (max : Nat) (enum : Except String (List String))
    (rawAt : RawOracle) (trAt : TrOracle) (k : Nat) : List SSEEvent :=
  replayEvents (stateAfter cu max enum rawAt trAt k) ++
    ((jobSteps cu max enum rawAt trAt).map (·.event)).drop k

/-! ### The stream-attach handler itself
Source: `GET /api/youtube/jobs/:jobId/stream` (index.js lines 145-168).
Its observable actions on the response channel: `send` an event, or end the
stream (`res.end()`).  The handler registers the subscriber, sends the
replay (or the unknown-job error event) and returns; no path calls
`res.end()` — streams are only ended later by `closeStreams` when the job
the id refers to terminates, and never for an id absent from the registry. -/

inductive StreamAction where
  | send (e : SSEEvent)
  | endStream
deriving DecidableEq

def StreamAction.isEnd : StreamAction → Bool
  | .endStream => true
  | .send _ => false

def streamHandler (job : Option JobState) : List StreamAction :=
  match job with
  | some j => (replayEvents j).map .send
  | none => [.send (.errorEv "Unknown jobId")]

/-! ### Event-sequence predicates used by the temporal claims -/

def isStatusEv : SSEEvent → Bool
  | .statusStarting => true
  | .statusReplay .. => true
  | _ => false

def isProgressEv : SSEEvent → Bool
  | .progressEv .. => true
  | _ => false

def isTerminalEv : SSEEvent → Bool
  | .doneEv _ => true
  | .errorEv _ => true
  | _ => false

/-- The sequence shape `status* progress* (done | error)`: after stripping
status events and then progress events, exactly one terminal event remains. -/
def matchesLifecycle (l : List SSEEvent) : Bool :=
  match (l.dropWhile isStatusEv).dropWhile isProgressEv with
  | [t] => isTerminalEv t
  | _ => false

/-- The `completed` values carried by the progress events of a sequence. -/
def progressCompleteds : List SSEEvent → List Nat
  | [] => []
  | .progressEv c _ _ _ _ :: l => c :: progressCompleteds l
  | _ :: l => progressCompleteds l

/-- Specification-side closed form of the events of the unit loop. -/
def loopEvents (rawAt : RawOracle) (trAt : TrOracle) (N : Nat) :
    List String → Nat → List SSEEvent
  | [], _ => [.doneEv N]
  | videoId :: rest, i =>
    .progressEv (i + 1) N videoId (unitError (rawAt i)) (unitItem videoId (rawAt i) (trAt i)) ::
    loopEvents rawAt trAt N rest (i + 1)

/-- Whether an external call outcome was a thrown exception. -/
def isErr {ε α : Type} : Except ε α → Bool
  | .error _ => true
  | .ok _ => false

end YoutubeJobs

namespace YoutubeJobs

example : jsParseInt "  5abc" = some 5 := by decide
example : jsParseInt "-12x" = some (-12) := by decide
example : jsParseInt "abc" = none := by decide
example : jsParseInt "" = none := by decide
example : jsParseInt "7.9" = some 7 := by decide
example : clampInt (some "500") 1 100 10 = 100 := by decide
example : clampInt (some "-3") 1 100 10 = 1 := by decide
example : clampInt none 1 100 10 = 10 := by decide
example : parseUploadDate (some "20240115") = some "2024-01-15" := by decide
example : jsToISOString 7000 = "1970-01-01T00:00:07.000Z" := by decide
example : jsToISOString 1700000000000 = "2023-11-14T22:13:20.000Z" := by decide

/-! ### Supporting lemmas about the batch loop -/

lemma unitOutcome_error (videoId : String) (raw : Except String RawVideo)
    (trItems : Except String (List TranscriptItem)) :
    (unitOutcome videoId raw trItems).error = unitError raw := by
  cases raw <;> rfl

lemma unitError_isSome (raw : Except String RawVideo) :
    (unitError raw).isSome = isErr raw := by
  cases raw <;> rfl

lemma downloadLoop_eq (rawAt : RawOracle) (trAt : TrOracle) (rest : List String) :
    ∀ (i : Nat) (acc : List VideoMeta),
      downloadLoop rawAt trAt rest i acc = acc ++ outcomesFrom rawAt trAt rest i := by
  induction rest with
  | nil => intro i acc; simp [downloadLoop, outcomesFrom]
  | cons v r ih => intro i acc; simp [downloadLoop, outcomesFrom, ih]

lemma outcomesFrom_length (rawAt : RawOracle) (trAt : TrOracle) (rest : List String) :
    ∀ i : Nat, (outcomesFrom rawAt trAt rest i).length = rest.length := by
  induction rest with
  | nil => intro i; rfl
  | cons v r ih => intro i; simp [outcomesFrom, ih]

lemma outcomesFrom_get? (rawAt : RawOracle) (trAt : TrOracle) (rest : List String) :
    ∀ (i j : Nat),
      (outcomesFrom rawAt trAt rest i).get? j =
        (rest.get? j).map fun v => unitOutcome v (rawAt (i + j)) (trAt (i + j)) := by
  induction rest with
  | nil => intro i j; simp [outcomesFrom]
  | cons v r ih =>
    intro i j
    cases j with
    | zero => simp [outcomesFrom]
    | succ j =>
      have h : i + (j + 1) = i + 1 + j := by omega
      simp only [outcomesFrom, List.get?_cons_succ, h]
      exact ih (i + 1) j

lemma outcomesFrom_countP (rawAt : RawOracle) (trAt : TrOracle) (rest : List String) :
    ∀ i : Nat,
      ((outcomesFrom rawAt trAt rest i).countP fun r => r.error.isSome) =
        ((List.range' i rest.length).countP fun j => isErr (rawAt j)) := by
  induction rest with
  | nil => intro i; rfl
  | cons v r ih =>
    intro i
    simp only [outcomesFrom, List.length_cons, List.range'_succ, List.countP_cons,
      unitOutcome_error, unitError_isSome]
    rw [ih (i + 1)]

/-! ### Supporting lemmas about the broadcast trace -/

lemma loopSteps_events (cu : String) (max : Nat) (rawAt : RawOracle) (trAt : TrOracle)
    (N : Nat) (rest : List String) : ∀ (i : Nat) (acc : List VideoMeta),
    (loopSteps cu max rawAt trAt N rest i acc).map (·.event) = loopEvents rawAt trAt N rest i := by
  induction rest with
  | nil => intro i acc; rfl
  | cons v r ih => intro i acc; simp [loopSteps, loopEvents, ih]

lemma loopEvents_dropWhile_status (rawAt : RawOracle) (trAt : TrOracle) (N : Nat)
    (rest : List String) (i : Nat) :
    (loopEvents rawAt trAt N rest i).dropWhile isStatusEv = loopEvents rawAt trAt N rest i := by
  cases rest <;> simp [loopEvents, List.dropWhile_cons, isStatusEv]

lemma loopEvents_dropWhile_progress (rawAt : RawOracle) (trAt : TrOracle) (N : Nat)
    (rest : List String) : ∀ i : Nat,
    (loopEvents rawAt trAt N rest i).dropWhile isProgressEv = [.doneEv N] := by
  induction rest with
  | nil => intro i; simp [loopEvents, List.dropWhile_cons, isProgressEv]
  | cons v r ih => intro i; simp [loopEvents, List.dropWhile_cons, isProgressEv, ih]

lemma matchesLifecycle_loopEvents (rawAt : RawOracle) (trAt : TrOracle) (N : Nat)
    (rest : List String) (i : Nat) :
    matchesLifecycle (loopEvents rawAt trAt N rest i) = true := by
  rw [matchesLifecycle, loopEvents_dropWhile_status, loopEvents_dropWhile_progress]
  rfl

lemma matchesLifecycle_cons_status (e : SSEEvent) (l : List SSEEvent)
    (h : isStatusEv e = true) : matchesLifecycle (e :: l) = matchesLifecycle l := by
  simp [matchesLifecycle, List.dropWhile_cons, h]

lemma matchesLifecycle_cons_statusReplay (s : JobStatus) (a b : Nat) (l : List SSEEvent) :
    matchesLifecycle (.statusReplay s a b :: l) = matchesLifecycle l :=
  matchesLifecycle_cons_status _ l rfl

lemma matchesLifecycle_cons_starting (l : List SSEEvent) :
    matchesLifecycle (.statusStarting :: l) = matchesLifecycle l :=
  matchesLifecycle_cons_status _ l rfl

lemma loopEvents_drop (rawAt : RawOracle) (trAt : TrOracle) (N : Nat)
    (rest : List String) : ∀ (i k : Nat),
    (loopEvents rawAt trAt N rest i).drop k =
      if k ≤ rest.length then loopEvents rawAt trAt N (rest.drop k) (i + k) else [] := by
  induction rest with
  | nil =>
    intro i k
    cases k with
    | zero => simp [loopEvents]
    | succ k => simp [loopEvents]
  | cons v r ih =>
    intro i k
    cases k with
    | zero => simp
    | succ k =>
      have h : i + (k + 1) = i + 1 + k := by omega
      rw [loopEvents, List.drop_succ_cons, ih (i + 1) k]
      simp only [List.length_cons, List.drop_succ_cons, Nat.add_le_add_iff_right, h]

lemma loopEvents_progressCompleteds (rawAt : RawOracle) (trAt : TrOracle) (N : Nat)
    (rest : List String) : ∀ i : Nat,
    progressCompleteds (loopEvents rawAt trAt N rest i) = List.range' (i + 1) rest.length := by
  induction rest with
  | nil => intro i; rfl
  | cons v r ih =>
    intro i
    simp only [loopEvents, progressCompleteds, List.length_cons, List.range'_succ, ih (i + 1)]

lemma loopSteps_states_getD (cu : String) (max : Nat) (rawAt : RawOracle) (trAt : TrOracle)
    (N : Nat) (rest : List String) : ∀ (i : Nat) (acc : List VideoMeta) (j : Nat) (d : JobState),
    ((loopSteps cu max rawAt trAt N rest i acc).map (·.state)).getD j d =
      if j < rest.length then runningJob cu max N (i + j + 1)
      else if j = rest.length then doneJob cu max N (acc ++ outcomesFrom rawAt trAt rest i)
      else d := by
  induction rest with
  | nil =>
    intro i acc j d
    cases j with
    | zero => simp [loopSteps, outcomesFrom]
    | succ j => simp [loopSteps]
  | cons v r ih =>
    intro i acc j d
    cases j with
    | zero => simp [loopSteps]
    | succ j =>
      have h1 : i + 1 + j + 1 = i + (j + 1) + 1 := by omega
      simp only [loopSteps, List.map_cons, List.getD_cons_succ, List.length_cons]
      rw [ih (i + 1) (acc ++ [unitOutcome v (rawAt i) (trAt i)]) j d]
      simp only [h1, Nat.add_lt_add_iff_right, Nat.add_right_cancel_iff, outcomesFrom,
        List.append_assoc, List.singleton_append]

lemma loopSteps_states_getLastD (cu : String) (max : Nat) (rawAt : RawOracle) (trAt : TrOracle)
    (N : Nat) (rest : List String) : ∀ (i : Nat) (acc : List VideoMeta) (d : JobState),
    ((loopSteps cu max rawAt trAt N rest i acc).map (·.state)).getLastD d =
      doneJob cu max N (acc ++ outcomesFrom rawAt trAt rest i) := by
  induction rest with
  | nil => intro i acc d; simp [loopSteps, outcomesFrom]
  | cons v r ih =>
    intro i acc d
    simp only [loopSteps, List.map_cons, List.getLastD_cons]
    rw [ih (i + 1) (acc ++ [unitOutcome v (rawAt i) (trAt i)])]
    simp [outcomesFrom, List.append_assoc]

lemma finalJob_ok (cu : String) (max : Nat) (ids : List String)
    (rawAt : RawOracle) (trAt : TrOracle) :
    finalJob cu max (.ok ids) rawAt trAt =
      doneJob cu max ids.length (outcomesFrom rawAt trAt ids 0) := by
  show (jobStates cu max (.ok ids) rawAt trAt).getLastD (initialJob cu max) = _
  rw [jobStates, jobSteps]
  simp only [List.map_cons, List.getLastD_cons]
  rw [loopSteps_states_getLastD]
  simp

lemma finalJob_error (cu : String) (max : Nat) (e : String)
    (rawAt : RawOracle) (trAt : TrOracle) :
    finalJob cu max (.error e) rawAt trAt = errorJob cu max e := by
  rfl

lemma stateAfter_ok (cu : String) (max : Nat) (ids : List String)
    (rawAt : RawOracle) (trAt : TrOracle) (k : Nat) :
    stateAfter cu max (.ok ids) rawAt trAt k =
      if k ≤ 1 then initialJob cu max
      else if k ≤ ids.length + 1 then runningJob cu max ids.length (k - 1)
      else doneJob cu max ids.length (outcomesFrom rawAt trAt ids 0) := by
  rw [stateAfter, jobStates, jobSteps, finalJob_ok]
  match k with
  | 0 => simp
  | 1 => simp
  | (j + 2) =>
    simp only [List.map_cons, List.getD_cons_succ]
    rw [loopSteps_states_getD]
    have h2 : ¬(j + 2 ≤ 1) := by omega
    simp only [h2, if_false, List.nil_append]
    by_cases hlt : j < ids.length
    · have : j + 2 ≤ ids.length + 1 := by omega
      simp only [hlt, if_true, this]
      congr 1
      omega
    · by_cases heq : j = ids.length
      · have h3 : ¬(j + 2 ≤ ids.length + 1) := by omega
        simp [hlt, heq, h3]
      · have h3 : ¬(j + 2 ≤ ids.length + 1) := by omega
        simp [hlt, heq, h3]

lemma stateAfter_error (cu : String) (max : Nat) (e : String)
    (rawAt : RawOracle) (trAt : TrOracle) (k : Nat) :
    stateAfter cu max (.error e) rawAt trAt k =
      if k ≤ 1 then initialJob cu max else errorJob cu max e := by
  rw [stateAfter, jobStates, jobSteps, finalJob_error]
  match k with
  | 0 => simp
  | 1 => simp
  | (j + 2) =>
    simp only [List.map_cons, List.getD_cons_succ]
    have h2 : ¬(j + 2 ≤ 1) := by omega
    simp only [h2, if_false]
    match j with
    | 0 => simp
    | (m + 1) => simp

lemma loopSteps_statuses (cu : String) (max : Nat) (rawAt : RawOracle) (trAt : TrOracle)
    (N : Nat) (rest : List String) : ∀ (i : Nat) (acc : List VideoMeta),
    (loopSteps cu max rawAt trAt N rest i acc).map (fun s => s.state.status) =
      List.replicate rest.length JobStatus.running ++ [JobStatus.done] := by
  induction rest with
  | nil => intro i acc; rfl
  | cons v r ih =>
    intro i acc
    simp [loopSteps, ih, List.replicate_succ, runningJob, initialJob]

/-! ### Claim theorems -/

/-- C1: for every batch whose enumeration yields `N` unit identifiers, of
which `k` unit fetches fail, the batch runs to completion and the job
reaches terminal status `done` with `completed == N`, `total == N`,
`results.length == N`, and exactly `k` entries of `results` carrying a
non-null `error` field; no individual unit failure aborts the batch. -/
theorem c1_unit_failures_do_not_abort (cu : String) (max : Nat) (ids : List String)
    (rawAt : RawOracle) (trAt : TrOracle) :
    (finalJob cu max (.ok ids) rawAt trAt).status = .done ∧
    (finalJob cu max (.ok ids) rawAt trAt).completed = ids.length ∧
    (finalJob cu max (.ok ids) rawAt trAt).total = ids.length ∧
    (finalJob cu max (.ok ids) rawAt trAt).results.length = ids.length ∧
    ((finalJob cu max (.ok ids) rawAt trAt).results.countP fun r => r.error.isSome) =
      ((List.range ids.length).countP fun i => isErr (rawAt i)) := by
  rw [finalJob_ok]
  refine ⟨rfl, rfl, rfl, ?_, ?_⟩
  · simp [doneJob, outcomesFrom_length]
  · simp only [doneJob]
    rw [outcomesFrom_countP, List.range_eq_range']

/-- C3: in every reachable registry state of a job, `completed ≤ total`;
`results.length == completed` holds whenever the status is not `running`;
and the observed status sequence is some number of `running` states followed
by exactly one terminal (`done` or `error`) state — the status changes
exactly once, never backward, and never revisits `running`. -/
theorem c3_state_invariants (cu : String) (max : Nat) (enum : Except String (List String))
    (rawAt : RawOracle) (trAt : TrOracle) (k : Nat) :
    ((stateAfter cu max enum rawAt trAt k).completed ≤ (stateAfter cu max enum rawAt trAt k).total) ∧
    ((stateAfter cu max enum rawAt trAt k).status ≠ .running →
      (stateAfter cu max enum rawAt trAt k).results.length =
        (stateAfter cu max enum rawAt trAt k).completed) ∧
    (∃ m t, ((jobStates cu max enum rawAt trAt).map (·.status)) =
        List.replicate m JobStatus.running ++ [t] ∧ (t = .done ∨ t = .error)) := by
  cases enum with
  | error e =>
    refine ⟨?_, ?_, 2, .error, rfl, Or.inr rfl⟩
    · rw [stateAfter_error]
      split_ifs <;> simp [initialJob, errorJob]
    · rw [stateAfter_error]
      split_ifs with h
      · intro hc; exact absurd rfl hc
      · intro _; rfl
  | ok ids =>
    refine ⟨?_, ?_, ids.length + 2, .done, ?_, Or.inl rfl⟩
    · rw [stateAfter_ok]
      split_ifs with h1 h2
      · simp [initialJob]
      · simp only [runningJob, initialJob]
        omega
      · simp [doneJob]
    · rw [stateAfter_ok]
      split_ifs with h1 h2
      · intro hc; exact absurd rfl hc
      · intro hc; exact absurd rfl hc
      · intro _
        simp [doneJob, outcomesFrom_length]
    · rw [jobStates, jobSteps]
      simp only [List.map_cons, List.map_map]
      rw [show ((·.status) ∘ (·.state) : JobStep → JobStatus) = fun s => s.state.status from rfl]
      rw [loopSteps_statuses]
      simp [List.replicate_succ, initialJob]

/-- Witness for C3 at a concrete failed run: once the status is no longer
`running`, `results.length` equals `completed`. -/
theorem c3_state_invariants_witness :
    (stateAfter "u" 7 (.error "boom") (fun _ => .error "x") (fun _ => .error "y") 2).results.length =
      (stateAfter "u" 7 (.error "boom") (fun _ => .error "x") (fun _ => .error "y") 2).completed :=
  (c3_state_invariants "u" 7 (.error "boom") (fun _ => .error "x") (fun _ => .error "y") 2).2.1
    (by decide)

/-- C5: `results[i]` is the outcome of the `i`-th enumerated unit for every
`i`: the loop appends exactly one outcome per unit, in enumeration order,
and the registry's final `results` are exactly what `downloadChannelData`
returned. -/
theorem c5_order_preserved (cu : String) (max : Nat) (ids : List String)
    (rawAt : RawOracle) (trAt : TrOracle) (i : Nat) :
    (finalJob cu max (.ok ids) rawAt trAt).results.length = ids.length ∧
    (finalJob cu max (.ok ids) rawAt trAt).results.get? i =
      (ids.get? i).map (fun v => unitOutcome v (rawAt i) (trAt i)) ∧
    downloadChannelData (.ok ids) rawAt trAt =
      .ok (ids.length, (finalJob cu max (.ok ids) rawAt trAt).results) := by
  rw [finalJob_ok]
  refine ⟨?_, ?_, ?_⟩
  · simp [doneJob, outcomesFrom_length]
  · simp only [doneJob]
    rw [outcomesFrom_get?]
    simp
  · simp only [downloadChannelData, doneJob]
    rw [downloadLoop_eq]
    simp

/-- C2 counterexample: an external listing call that *succeeds* but yields
no parseable entries does not abort the batch — `listVideoIds` returns the
empty id list and the job terminates with status `done`, not `error`,
contradicting the claim that "no parseable entries" raises an
EnumerationError. -/
theorem c2_counterexample :
    listVideoIds (.ok ⟨some []⟩) (some "5") = .ok [] ∧
    (finalJob "https://example.com/@h" 5 (listVideoIds (.ok ⟨some []⟩) (some "5"))
        (fun _ => .error "unused") (fun _ => .error "unused")).status = .done ∧
    ((finalJob "https://example.com/@h" 5 (listVideoIds (.ok ⟨some []⟩) (some "5"))
        (fun _ => .error "unused") (fun _ => .error "unused")).status == JobStatus.error) = false := by
  refine ⟨rfl, rfl, rfl⟩

/-- C2 amended: the batch aborts — job status `error`, `completed == 0`,
`results == []`, `error` set to the underlying message — exactly when the
external listing call (or JSON-parsing its output) fails; a listing that
parses but contains no parseable entries yields an empty id sequence and the
job still completes with status `done`.  Partial enumeration is never an
error. -/
theorem c2_amended_enumeration_failure (cu : String) (max : Nat) (mv : Option String)
    (e : String) (parsed : Listing) (rawAt : RawOracle) (trAt : TrOracle) :
    listVideoIds (.error e) mv = .error e ∧
    finalJob cu max (listVideoIds (.error e) mv) rawAt trAt = errorJob cu max e ∧
    (errorJob cu max e).status = .error ∧
    (errorJob cu max e).completed = 0 ∧
    (errorJob cu max e).results = [] ∧
    (errorJob cu max e).error = some e ∧
    (∃ l, listVideoIds (.ok parsed) mv = .ok l ∧
      (finalJob cu max (.ok l) rawAt trAt).status = .done) := by
  refine ⟨rfl, finalJob_error cu max e rawAt trAt, rfl, rfl, rfl, rfl, ?_⟩
  exact ⟨_, rfl, by rw [finalJob_ok]; rfl⟩

/-- C4 counterexample: the placeholder appended for a unit whose primary
metadata fetch failed does carry the identifier and the error message, but
its `title` and `description` are the empty string `''`, not null,
contradicting the claim that all non-error fields are null. -/
theorem c4_counterexample :
    (unitOutcome "vid1" (.error "network down") (.error "t")).error = some "network down" ∧
    (unitOutcome "vid1" (.error "network down") (.error "t")).title = some "" ∧
    ((unitOutcome "vid1" (.error "network down") (.error "t")).title == (none : Option String)) = false ∧
    (unitOutcome "vid1" (.error "network down") (.error "t")).description = some "" ∧
    ((unitOutcome "vid1" (.error "network down") (.error "t")).description == (none : Option String)) = false := by
  refine ⟨rfl, rfl, rfl, rfl, rfl⟩

/-- C4 amended: for every unit whose primary metadata fetch fails, the
appended record carries the unit identifier, a non-null error string,
empty-string `title` and `description`, the canonical video URL, and null
for every other field (transcript, duration fields, release date, numeric
stats, thumbnail). -/
theorem c4_amended_placeholder_shape (cu : String) (max : Nat) (ids : List String)
    (rawAt : RawOracle) (trAt : TrOracle) (i : Nat) (e : String)
    (h1 : i < ids.length) (h2 : rawAt i = .error e) :
    (finalJob cu max (.ok ids) rawAt trAt).results.get? i =
      some { video_id := ids.getD i ""
             title := some ""
             description := some ""
             transcript := none
             duration_seconds := none
             duration_iso := none
             release_date := none
             view_count := none
             like_count := none
             comment_count := none
             video_url := normalizeVideoUrl (ids.getD i "")
             thumbnail_url := none
             error := some e } := by
  rw [finalJob_ok]
  simp only [doneJob]
  rw [outcomesFrom_get?]
  have ha : ids.get? i = some (ids.getD i "") := by
    cases h : ids.get? i with
    | none =>
      have := List.get?_eq_none.mp h
      omega
    | some a =>
      rw [List.getD_eq_getElem?_getD, ← List.get?_eq_getElem?, h]
      rfl
  rw [ha]
  simp only [Nat.zero_add, Option.map_some', h2]
  rfl

/-- Witness for C4 at a concrete two-unit batch whose second fetch fails. -/
theorem c4_amended_placeholder_shape_witness :
    (finalJob "u" 10 (.ok ["a", "b"]) (fun _ => .error "boom")
        (fun _ => .error "t")).results.get? 1 =
      some { video_id := "b"
             title := some ""
             description := some ""
             transcript := none
             duration_seconds := none
             duration_iso := none
             release_date := none
             view_count := none
             like_count := none
             comment_count := none
             video_url := "https://www.youtube.com/watch?v=b"
             thumbnail_url := none
             error := some "boom" } :=
  c4_amended_placeholder_shape "u" 10 ["a", "b"] (fun _ => .error "boom")
    (fun _ => .error "t") 1 "boom" (by decide) rfl

/-! ### Subscriber event-sequence lemmas (C6/C7) -/

lemma jobSteps_events_ok (cu : String) (max : Nat) (ids : List String)
    (rawAt : RawOracle) (trAt : TrOracle) :
    (jobSteps cu max (.ok ids) rawAt trAt).map (·.event) =
      .statusStarting :: loopEvents rawAt trAt ids.length ids 0 := by
  rw [jobSteps]
  simp only [List.map_cons]
  rw [loopSteps_events]

lemma replayEvents_initial (cu : String) (max : Nat) :
    replayEvents (initialJob cu max) = [.statusReplay .running 0 max] := rfl

lemma replayEvents_running (cu : String) (max N c : Nat) :
    replayEvents (runningJob cu max N c) = [.statusReplay .running c N] := rfl

lemma replayEvents_done (cu : String) (max N : Nat) (res : List VideoMeta) :
    replayEvents (doneJob cu max N res) =
      [.statusReplay .done N N, .doneEv N] := rfl

lemma replayEvents_error (cu : String) (max : Nat) (e : String) :
    replayEvents (errorJob cu max e) =
      [.statusReplay .error 0 max, .errorEv e] := rfl

lemma received_ok_cases (cu : String) (max : Nat) (ids : List String)
    (rawAt : RawOracle) (trAt : TrOracle) (k : Nat) :
    receivedEvents cu max (.ok ids) rawAt trAt k =
      if k = 0 then
        .statusReplay .running 0 max :: .statusStarting ::
          loopEvents rawAt trAt ids.length ids 0
      else if k = 1 then
        .statusReplay .running 0 max :: loopEvents rawAt trAt ids.length ids 0
      else if k ≤ ids.length + 1 then
        .statusReplay .running (k - 1) ids.length ::
          loopEvents rawAt trAt ids.length (ids.drop (k - 1)) (k - 1)
      else
        [.statusReplay .done ids.length ids.length, .doneEv ids.length] := by
  rw [receivedEvents, stateAfter_ok, jobSteps_events_ok]
  match k with
  | 0 => simp [replayEvents_initial]
  | 1 => simp [replayEvents_initial]
  | (j + 2) =>
    have h2 : ¬(j + 2 ≤ 1) := by omega
    simp only [h2, if_false, List.drop_succ_cons]
    by_cases h3 : j + 2 ≤ ids.length + 1
    · have h4 : j + 1 ≤ ids.length := by omega
      simp only [h3, if_true, replayEvents_running]
      rw [loopEvents_drop]
      simp only [h4, if_true, Nat.zero_add]
      rfl
    · have h4 : ¬(j + 1 ≤ ids.length) := by omega
      simp only [h3, if_false, replayEvents_done]
      rw [loopEvents_drop]
      simp only [h4, if_false, List.append_nil]
      rfl

lemma received_error_cases (cu : String) (max : Nat) (e : String)
    (rawAt : RawOracle) (trAt : TrOracle) (k : Nat) :
    receivedEvents cu max (.error e) rawAt trAt k =
      if k = 0 then [.statusReplay .running 0 max, .statusStarting, .errorEv e]
      else if k = 1 then [.statusReplay .running 0 max, .errorEv e]
      else [.statusReplay .error 0 max, .errorEv e] := by
  rw [receivedEvents, stateAfter_error]
  match k with
  | 0 => rfl
  | 1 => rfl
  | (j + 2) =>
    have h2 : ¬(j + 2 ≤ 1) := by omega
    simp only [h2, if_false, replayEvents_error]
    show _ ++ List.drop j [] = _
    simp

lemma matchesLifecycle_status_done (a b N : Nat) (st : JobStatus) :
    matchesLifecycle [.statusReplay st a b, .doneEv N] = true := by
  simp [matchesLifecycle, List.dropWhile, isStatusEv, isProgressEv, isTerminalEv]

lemma matchesLifecycle_status_error (a b : Nat) (st : JobStatus) (e : String) :
    matchesLifecycle [.statusReplay st a b, .errorEv e] = true := by
  simp [matchesLifecycle, List.dropWhile, isStatusEv, isProgressEv, isTerminalEv]

lemma progressCompleteds_cons_status (s : JobStatus) (a b : Nat) (l : List SSEEvent) :
    progressCompleteds (.statusReplay s a b :: l) = progressCompleteds l := rfl

lemma progressCompleteds_cons_starting (l : List SSEEvent) :
    progressCompleteds (.statusStarting :: l) = progressCompleteds l := rfl

/-- C6: whatever point `k` of the run a subscriber attaches at, the events
it receives match `status* → progress* → (done | error)`; the first event is
always the replayed `status` snapshot of the job state at attach time; the
received `progress` events carry the consecutive `completed` values from
(snapshot `completed`)+1 up to `total` (so an attacher at the start sees
1,2,…,total, and an attacher after the terminal state sees no `progress`
events and exactly one terminal event); for an enumeration-failure run the
subscriber likewise sees status events followed by exactly one `error`
terminal event and no progress. -/
theorem c6_subscriber_event_sequences (cu : String) (max : Nat) (ids : List String)
    (e : String) (rawAt : RawOracle) (trAt : TrOracle) (k : Nat) :
    matchesLifecycle (receivedEvents cu max (.ok ids) rawAt trAt k) = true ∧
    (receivedEvents cu max (.ok ids) rawAt trAt k).head? =
      some (.statusReplay (stateAfter cu max (.ok ids) rawAt trAt k).status
        (stateAfter cu max (.ok ids) rawAt trAt k).completed
        (stateAfter cu max (.ok ids) rawAt trAt k).total) ∧
    progressCompleteds (receivedEvents cu max (.ok ids) rawAt trAt k) =
      List.range' ((stateAfter cu max (.ok ids) rawAt trAt k).completed + 1)
        (ids.length - (stateAfter cu max (.ok ids) rawAt trAt k).completed) ∧
    matchesLifecycle (receivedEvents cu max (.error e) rawAt trAt k) = true ∧
    progressCompleteds (receivedEvents cu max (.error e) rawAt trAt k) = [] ∧
    (receivedEvents cu max (.error e) rawAt trAt k).head? =
      some (.statusReplay (stateAfter cu max (.error e) rawAt trAt k).status
        (stateAfter cu max (.error e) rawAt trAt k).completed
        (stateAfter cu max (.error e) rawAt trAt k).total) := by
  refine ⟨?_, ?_, ?_, ?_, ?_, ?_⟩
  · rw [received_ok_cases]
    split_ifs with h0 h1 h2
    · rw [matchesLifecycle_cons_statusReplay, matchesLifecycle_cons_starting,
        matchesLifecycle_loopEvents]
    · rw [matchesLifecycle_cons_statusReplay, matchesLifecycle_loopEvents]
    · rw [matchesLifecycle_cons_statusReplay, matchesLifecycle_loopEvents]
    · exact matchesLifecycle_status_done _ _ _ _
  · rw [received_ok_cases, stateAfter_ok]
    split_ifs <;> first | rfl | (exfalso; omega)
  · rw [received_ok_cases, stateAfter_ok]
    split_ifs <;>
      first
        | (exfalso; omega)
        | (simp [progressCompleteds_cons_status, progressCompleteds_cons_starting,
            loopEvents_progressCompleteds, List.length_drop, initialJob, runningJob,
            doneJob, progressCompleteds])
  · rw [received_error_cases]
    split_ifs <;>
      simp [matchesLifecycle, List.dropWhile, isStatusEv, isProgressEv, isTerminalEv]
  · rw [received_error_cases]
    split_ifs <;> simp [progressCompleteds]
  · rw [received_error_cases, stateAfter_error]
    split_ifs <;> first | rfl | (exfalso; omega)

/-- C7 counterexample: attaching to the stream with a job id unknown to the
registry sends exactly one `error` event but the handler performs no
`endStream` action — the server leaves the connection open, contradicting
"then the stream ends". -/
theorem c7_counterexample :
    streamHandler none = [.send (.errorEv "Unknown jobId")] ∧
    ((streamHandler none).map StreamAction.isEnd) = [false] ∧
    ((streamHandler none).any StreamAction.isEnd) = false := by
  exact ⟨rfl, rfl, rfl⟩

/-- C7 amended: for an unknown job id the subscriber immediately receives a
single `error` event, but the handler never ends the stream (for any lookup
result); the connection stays open until the client disconnects, since
`closeStreams` only runs for jobs that exist and terminate. -/
theorem c7_amended_unknown_job (j : Option JobState) :
    streamHandler none = [.send (.errorEv "Unknown jobId")] ∧
    ((streamHandler j).any StreamAction.isEnd) = false := by
  refine ⟨rfl, ?_⟩
  cases j with
  | none => rfl
  | some s =>
    simp [streamHandler, List.any_map, Function.comp, StreamAction.isEnd]

/-- C8: the effective maximum unit count is always in `[1, 100]`; values
parsing outside that range are clamped to the nearest bound, in-range values
are kept, and inputs parseInt cannot turn into a finite number (absent,
non-numeric, or overflowing) yield the default 10. -/
theorem c8_max_units_clamped (n : Option String) :
    (1 ≤ clampInt n 1 100 10 ∧ clampInt n 1 100 10 ≤ 100) ∧
    (∀ x : Int, jsParseIntFinite n = some x → 100 < x → clampInt n 1 100 10 = 100) ∧
    (∀ x : Int, jsParseIntFinite n = some x → x < 1 → clampInt n 1 100 10 = 1) ∧
    (∀ x : Int, jsParseIntFinite n = some x → 1 ≤ x → x ≤ 100 → clampInt n 1 100 10 = x) ∧
    (jsParseIntFinite n = none → clampInt n 1 100 10 = 10) := by
  cases h : jsParseInt (n.getD "undefined") with
  | none =>
    have hc : clampInt n 1 100 10 = 10 := by unfold clampInt; rw [h]
    have hf : jsParseIntFinite n = none := by unfold jsParseIntFinite; rw [h]
    rw [hc, hf]
    refine ⟨⟨by omega, by omega⟩, ?_, ?_, ?_, fun _ => rfl⟩ <;>
      exact fun x hx => absurd hx (by simp)
  | some x =>
    by_cases ho : overflowsDouble x = true
    · have hc : clampInt n 1 100 10 = 10 := by unfold clampInt; rw [h]; simp [ho]
      have hf : jsParseIntFinite n = none := by unfold jsParseIntFinite; rw [h]; simp [ho]
      rw [hc, hf]
      refine ⟨⟨by omega, by omega⟩, ?_, ?_, ?_, fun _ => rfl⟩ <;>
        exact fun y hy => absurd hy (by simp)
    · have hc : clampInt n 1 100 10 = max 1 (min 100 x) := by
        unfold clampInt; rw [h]; simp [ho]
      have hf : jsParseIntFinite n = some x := by
        unfold jsParseIntFinite; rw [h]; simp [ho]
      rw [hc, hf]
      refine ⟨⟨by omega, by omega⟩, ?_, ?_, ?_, fun hn => nomatch hn⟩
      · intro y hy hgt
        cases hy
        omega
      · intro y hy hlt
        cases hy
        omega
      · intro y hy h1 h2
        cases hy
        omega

/-- Witness for C8 at concrete inputs: an over-range value clamps to 100, a
negative value clamps to 1, an in-range value is kept, a non-numeric input
falls back to 10. -/
theorem c8_max_units_clamped_witness :
    clampInt (some "500") 1 100 10 = 100 ∧
    clampInt (some "-3") 1 100 10 = 1 ∧
    clampInt (some "7") 1 100 10 = 7 ∧
    clampInt (some "abc") 1 100 10 = 10 :=
  ⟨(c8_max_units_clamped (some "500")).2.1 500 (by decide) (by decide),
   (c8_max_units_clamped (some "-3")).2.2.1 (-3) (by decide) (by decide),
   (c8_max_units_clamped (some "7")).2.2.2.1 7 (by decide) (by decide) (by decide),
   (c8_max_units_clamped (some "abc")).2.2.2.2 (by decide)⟩

/-- C9 counterexample: `parseUploadDate` checks only that `upload_date` is a
string of length 8, not that it consists of digits, and a present-but-zero
timestamp is treated as absent.  With `upload_date = "abcdefgh"` and
`timestamp = 7`, the claim requires the normalized date to be the ISO form
of the timestamp, but the code splits the non-digit string; with a zero
timestamp present the claim requires its ISO form, but the code yields
null. -/
theorem c9_counterexample :
    releaseDate (some "abcdefgh") (some 7) = some "abcd-ef-gh" ∧
    jsToISOString (7 * 1000) = "1970-01-01T00:00:07.000Z" ∧
    ((releaseDate (some "abcdefgh") (some 7)) == some (jsToISOString (7 * 1000))) = false ∧
    releaseDate none (some 0) = none ∧
    ((releaseDate none (some 0)) == some (jsToISOString (0 * 1000))) = false := by
  refine ⟨by decide, by decide, by decide, by decide, by decide⟩

/-- C9 amended: any 8-character string upload date (digit content is not
checked) is split as `YYYY-MM-DD`; otherwise a present *nonzero* numeric
epoch timestamp is converted to its ISO-8601 string; otherwise (timestamp
absent or zero) the release date is null. -/
theorem c9_amended_release_date (ud : Option String) (ts : Option Int) :
    (∀ s, ud = some s → s.length = 8 →
      releaseDate ud ts = some (s.take 4 ++ "-" ++ (s.drop 4).take 2 ++ "-" ++ s.drop 6)) ∧
    (parseUploadDate ud = none → ∀ t, ts = some t → t ≠ 0 →
      releaseDate ud ts = some (jsToISOString (t * 1000))) ∧
    (parseUploadDate ud = none → ts = none → releaseDate ud ts = none) ∧
    (parseUploadDate ud = none → ts = some 0 → releaseDate ud ts = none) := by
  refine ⟨?_, ?_, ?_, ?_⟩
  · intro s hs h8
    subst hs
    have hq : parseUploadDate (some s) =
        some (s.take 4 ++ "-" ++ (s.drop 4).take 2 ++ "-" ++ s.drop 6) := by
      unfold parseUploadDate
      simp [h8]
    unfold releaseDate
    rw [hq]
  · intro hp t ht h0
    subst ht
    unfold releaseDate
    rw [hp]
    simp [h0]
  · intro hp ht
    subst ht
    unfold releaseDate
    rw [hp]
  · intro hp ht
    subst ht
    unfold releaseDate
    rw [hp]
    simp

/-- Witness for C9 on each branch: a digit compact date splits, a nonzero
timestamp converts, absent inputs and a zero timestamp give null. -/
theorem c9_amended_release_date_witness :
    releaseDate (some "20240115") none = some "2024-01-15" ∧
    releaseDate none (some 5) = some "1970-01-01T00:00:05.000Z" ∧
    releaseDate none none = none ∧
    releaseDate (some "short") (some 0) = none := by
  refine ⟨?_, ?_, ?_, ?_⟩
  · have h := (c9_amended_release_date (some "20240115") none).1 "20240115" rfl (by decide)
    exact h.trans (by decide)
  · have h := (c9_amended_release_date none (some 5)).2.1 (by decide) 5 rfl (by decide)
    exact h.trans (by decide)
  · exact (c9_amended_release_date none none).2.2.1 (by decide) rfl
  · exact (c9_amended_release_date (some "short") (some 0)).2.2.2 (by decide) rfl

/-- C10 counterexample: a 310-digit numeral has a parseable leading integer,
yet `clampInt` returns the fallback 10 rather than clamping it to 100 — the
parsed value overflows the IEEE-double range, so `Number.isFinite` fails.
This contradicts "only inputs with no parseable leading integer yield the
fallback 10". -/
theorem c10_counterexample :
    (jsParseInt (String.mk (List.replicate 310 '9'))).isSome = true ∧
    clampInt (some (String.mk (List.replicate 310 '9'))) 1 100 10 = 10 ∧
    ((clampInt (some (String.mk (List.replicate 310 '9'))) 1 100 10 : Int) == 100) = false := by
  refine ⟨by decide, by decide, by decide⟩

/-- C10 amended: `clampInt` applies JS `parseInt` semantics before clamping
— the effective value is the clamped integer prefix of the input's decimal
string form when that prefix exists *and* its value fits in a finite IEEE
double; inputs with no parseable leading integer, or whose parsed integer
overflows the double range (magnitude at least 2^1024 − 2^970), yield the
fallback 10. -/
theorem c10_amended_parseint_semantics (n : Option String) (x : Int) :
    (jsParseInt (n.getD "undefined") = none → clampInt n 1 100 10 = 10) ∧
    (jsParseInt (n.getD "undefined") = some x → overflowsDouble x = false →
      clampInt n 1 100 10 = max 1 (min 100 x)) ∧
    (jsParseInt (n.getD "undefined") = some x → overflowsDouble x = true →
      clampInt n 1 100 10 = 10) := by
  refine ⟨?_, ?_, ?_⟩
  · intro h
    unfold clampInt
    rw [h]
  · intro h ho
    unfold clampInt
    rw [h]
    simp [ho]
  · intro h ho
    unfold clampInt
    rw [h]
    simp [ho]

/-- Witness for C10: truncation of "7.9" (the decimal string of 7.9) to 7,
leading-prefix parsing of "5abc" to 5, negative values clamping to 1, and
fallback on undefined / empty / non-numeric inputs. -/
theorem c10_amended_parseint_semantics_witness :
    clampInt (some "7.9") 1 100 10 = max 1 (min 100 7) ∧
    clampInt (some "5abc") 1 100 10 = max 1 (min 100 5) ∧
    clampInt (some "-3") 1 100 10 = max 1 (min 100 (-3)) ∧
    clampInt none 1 100 10 = 10 ∧
    clampInt (some "") 1 100 10 = 10 ∧
    clampInt (some "abc") 1 100 10 = 10 :=
  ⟨(c10_amended_parseint_semantics (some "7.9") 7).2.1 (by decide) (by decide),
   (c10_amended_parseint_semantics (some "5abc") 5).2.1 (by decide) (by decide),
   (c10_amended_parseint_semantics (some "-3") (-3)).2.1 (by decide) (by decide),
   (c10_amended_parseint_semantics none 0).1 (by decide),
   (c10_amended_parseint_semantics (some "") 0).1 (by decide),
   (c10_amended_parseint_semantics (some "abc") 0).1 (by decide)⟩

end YoutubeJobs
